import Mathlib

/-!
Verification of the TixScanner price acquisition and change-detection engine.

The definitions below are a shallow embedding of the Python sources
`src/web_scraper.py`, `src/api_cache.py`, `src/rate_limiter.py`,
`src/ticketmaster_api.py` and `src/price_monitor.py`.  Monetary amounts and
other numeric values are modelled as rationals (`ℚ`); the Python code stores
some of them as IEEE doubles via `float(...)`, which we model by the exact
decimal value of the parsed literal.  Timestamps are modelled by their
order-isomorphic encodings, documented where they are introduced.
-/

namespace TixScanner

/-- Python truthiness of an optional rational (`if x:` on `Decimal`/`float`
or `None`): `None` and zero are falsy. -/
def optTruthyQ : Option ℚ → Bool
  | Option.none => false
  | some q => decide (q ≠ 0)

/-
A small regular-expression engine, needed because the behaviour of
`web_scraper.py` depends on the precise Python `re` semantics of its pattern
strings.  Quantifiers are restricted to the shapes the sources use
(character-class star via `starCls`, `+` and `{1,2}` encoded with `cat`/`opt`).
Each alternative list returned by `reMatches` is ordered by the backtracking
priority Python uses: alternation left-first, quantifiers greedy.
-/

/-- Regular expressions, as used by the patterns in `web_scraper.py`. -/
inductive RE where
  | eps
  | chr (c : Char)
  | cls (p : Char → Bool)
  | cat (a b : RE)
  | alt (a b : RE)
  | opt (r : RE)
  | starCls (p : Char → Bool)
  | eol
  | grp (r : RE)

/-- All ways a character-class star can match a prefix of `s`, greedy
(longest) first.  Mirrors Python's greedy `p*`. -/
def starSplits (p : Char → Bool) (s : List Char) : List (List Char × Option (List Char) × List Char) :=
  let run := s.takeWhile p
  let rest := s.drop run.length
  ((List.range (run.length + 1)).reverse).map fun k => (run.take k, Option.none, run.drop k ++ rest)

/-- Backtracking matcher: all (consumed, group-1 capture, remainder) triples
for `r` matching a prefix of `s`, in Python's backtracking priority order.
`eol` is Python's `$` without `MULTILINE`: end of string or just before a
final newline. -/
def reMatches : RE → List Char → List (List Char × Option (List Char) × List Char)
  | .eps, s => [([], Option.none, s)]
  | .chr _, [] => []
  | .chr c, x :: xs => if x = c then [([x], Option.none, xs)] else []
  | .cls _, [] => []
  | .cls p, x :: xs => if p x then [([x], Option.none, xs)] else []
  | .cat a b, s =>
      (reMatches a s).flatMap fun t1 =>
        (reMatches b t1.2.2).map fun t2 => (t1.1 ++ t2.1, t1.2.1 <|> t2.2.1, t2.2.2)
  | .alt a b, s => reMatches a s ++ reMatches b s
  | .opt r, s => reMatches r s ++ [([], Option.none, s)]
  | .starCls p, s => starSplits p s
  | .eol, s => if s = [] ∨ s = ['\n'] then [([], Option.none, s)] else []
  | .grp r, s => (reMatches r s).map fun t => (t.1, some t.1, t.2.2)

/-- `re.findall` over `s.data`: scan left to right, take the first
(leftmost-greedy) match at each position, record its group-1 capture (the
whole match if the pattern has no group), continue after it; advance one
character past an empty match.  Fuel bounds the scan. -/
def findallAux (pat : RE) : List Char → Nat → List (List Char)
  | _, 0 => []
  | s, fuel + 1 =>
    match reMatches pat s with
    | t :: _ =>
      let captured := t.2.1.getD t.1
      if t.1.isEmpty then
        match s with
        | [] => [captured]
        | _ :: xs => captured :: findallAux pat xs fuel
      else captured :: findallAux pat t.2.2 fuel
    | [] =>
      match s with
      | [] => []
      | _ :: xs => findallAux pat xs fuel

/-- `re.findall(pat, s)` returning the group-1 captures. -/
def findall (pat : RE) (s : String) : List String :=
  (findallAux pat s.data (s.length + 1)).map fun cs => String.mk cs

/-- `re.search(pat, s)` returning the group-1 capture of the leftmost
match, if any. -/
def searchCapAux (pat : RE) : List Char → Option (List Char)
  | [] =>
    match reMatches pat [] with
    | t :: _ => some (t.2.1.getD t.1)
    | [] => Option.none
  | s@(_ :: rest) =>
    match reMatches pat s with
    | t :: _ => some (t.2.1.getD t.1)
    | [] => searchCapAux pat rest

/-- `re.search` over a `String`, yielding the group-1 capture. -/
def searchFirst (pat : RE) (s : String) : Option String :=
  (searchCapAux pat s.data).map fun cs => String.mk cs

/-- `[0-9]` as a character class. -/
def isDigitB (c : Char) : Bool := c.isDigit

/-- A case-insensitive literal character, as under `re.IGNORECASE`. -/
def ciChar (c : Char) : RE := .cls fun x => x.toLower = c.toLower

/-- A case-insensitive literal string. -/
def ciStr (s : String) : RE := s.data.foldr (fun c acc => .cat (ciChar c) acc) .eps

/-- `[0-9]+` (greedy). -/
def digitPlus : RE := .cat (.cls isDigitB) (.starCls isDigitB)

/-- `.` in a Python regex without `DOTALL`: any character except newline. -/
def anyNoNl : RE := .cls fun c => c != '\n'

/-
`TicketmasterScraper._extract_prices_from_text` (web_scraper.py 323-347)
declares its patterns as raw strings with DOUBLED backslashes, so the regex
source Python's `re` receives is e.g. `\\$([0-9]+(?:\\.[0-9]{2})?)`:
`\\` matches a literal backslash, the following `$` is the end-of-string
anchor, `\\.` is a literal backslash followed by any character, and `\\s*`
is a literal backslash followed by zero or more letters `s`.  The encodings
below are those received patterns, constructor by constructor.
-/

/-- Pattern `r'\\$([0-9]+(?:\\.[0-9]{2})?)'` from web_scraper.py line 329
(commented there as matching `$99.99`). -/
def textPattern1 : RE :=
  .cat (.chr '\\')
    (.cat .eol
      (.grp (.cat digitPlus
        (.opt (.cat (.chr '\\') (.cat anyNoNl (.cat (.cls isDigitB) (.cls isDigitB))))))))

/-- Pattern `r'([0-9]+(?:\\.[0-9]{2})?)\\s*(?:USD|dollars?)'` from
web_scraper.py line 330 (commented there as matching `99.99 USD`). -/
def textPattern2 : RE :=
  .cat
    (.grp (.cat digitPlus
      (.opt (.cat (.chr '\\') (.cat anyNoNl (.cat (.cls isDigitB) (.cls isDigitB)))))))
    (.cat (.chr '\\')
      (.cat (.starCls fun x => x.toLower = 's')
        (.alt (ciStr "USD") (.cat (ciStr "dollar") (.opt (ciChar 's'))))))

/-- Pattern `r'(?:from|starting|as low as)\\s*\\$([0-9]+(?:\\.[0-9]{2})?)'`
from web_scraper.py line 331 (commented there as matching `from $99.99`). -/
def textPattern3 : RE :=
  .cat (.alt (ciStr "from") (.alt (ciStr "starting") (ciStr "as low as")))
    (.cat (.chr '\\')
      (.cat (.starCls fun x => x.toLower = 's')
        (.cat (.chr '\\')
          (.cat .eol
            (.grp (.cat digitPlus
              (.opt (.cat (.chr '\\') (.cat anyNoNl (.cat (.cls isDigitB) (.cls isDigitB)))))))))))

/-- Pattern `r'([0-9]+(?:\.[0-9]{1,2})?)'` used by `_parse_price_string`
(web_scraper.py line 366); here the backslashes are single, so `\.` is a
literal dot. -/
def priceNumPattern : RE :=
  .grp (.cat digitPlus
    (.opt (.cat (.chr '.') (.cat (.cls isDigitB) (.opt (.cls isDigitB))))))

/-- Exact decimal value of a `digits[.digits]` literal (the mathematical
value Python's `float(...)` approximates). -/
def digitsToNat (cs : List Char) : Nat :=
  cs.foldl (fun acc c => acc * 10 + (c.toNat - '0'.toNat)) 0

/-- Value of a decimal literal such as `99.99`, given as a character list of
the shape `digits[.digits]` produced by `priceNumPattern`. -/
def decCharsToRat (cs : List Char) : ℚ :=
  let whole := cs.takeWhile fun c => c != '.'
  match cs.drop whole.length with
  | [] => mkRat (digitsToNat whole) 1
  | _ :: frac =>
    mkRat (digitsToNat whole * 10 ^ frac.length + digitsToNat frac) (10 ^ frac.length)

/-- The cleaning step of `_parse_price_string` (web_scraper.py line 363):
`strip()` trims whitespace at both ends, then `.replace(',','')` and
`.replace('$','')` drop every comma and dollar sign. -/
def cleanPriceChars (cs : List Char) : List Char :=
  ((((cs.dropWhile Char.isWhitespace).reverse.dropWhile Char.isWhitespace).reverse).filter
      fun c => c != ',').filter fun c => c != '$'

/-- `TicketmasterScraper._parse_price_string` (web_scraper.py 349-373):
empty input is falsy and yields `None`; otherwise clean, regex-search for the
first `digits[.digits{1,2}]` substring, and parse it; no match yields `None`.
The Python code converts the matched literal with `float(...)`; we keep the
exact decimal value. -/
def parsePriceString (s : String) : Option ℚ :=
  if s.data.isEmpty then Option.none
  else
    match searchCapAux priceNumPattern (cleanPriceChars s.data) with
    | some numChars => some (decCharsToRat numChars)
    | Option.none => Option.none

/-- One extracted price entry (the dictionaries appended by the extraction
strategies in web_scraper.py).  `section` is a Lean keyword, hence the field
name `sectionName`. -/
structure PriceData where
  price : ℚ
  source : String
  sectionName : String
deriving DecidableEq

/-- `TicketmasterScraper._extract_prices_from_text` (web_scraper.py 323-347):
run the three patterns over the page text with `re.findall`, parse each
captured group, and keep values in the range [10, 10000] (the parsed price
must also be truthy, per `if price and ...`). -/
def extractPricesFromText (text : String) : List PriceData :=
  [textPattern1, textPattern2, textPattern3].flatMap fun pat =>
    (findall pat text).flatMap fun m =>
      match parsePriceString m with
      | some price =>
        if decide (price ≠ 0) && decide (10 ≤ price) && decide (price ≤ 10000) then
          [{ price := price, source := "text_regex", sectionName := "general" }]
        else []
      | Option.none => []

/-- Loop of the deduplication step in `_extract_prices_from_html`
(web_scraper.py 197-207): keep an entry when its `(price, section)` key is
unseen and its price is positive; only kept entries mark their key seen. -/
def dedupGo (seen : List (ℚ × String)) : List PriceData → List PriceData
  | [] => []
  | p :: rest =>
    let key := (p.price, p.sectionName)
    if !seen.contains key && decide (0 < p.price) then
      p :: dedupGo (key :: seen) rest
    else dedupGo seen rest

/-- The merge/deduplication step applied to the concatenated strategy
outputs in `_extract_prices_from_html` (web_scraper.py 197-207). -/
def dedupPrices (prices : List PriceData) : List PriceData :=
  dedupGo [] prices

/-- Spec-side companion of `dedupGo`: keep the first occurrence of each
`(amount, section)` key, with no positivity filter.  Used to state the
deduplication claim. -/
def keepFirstGo (seen : List (ℚ × String)) : List PriceData → List PriceData
  | [] => []
  | p :: rest =>
    let key := (p.price, p.sectionName)
    if !seen.contains key then p :: keepFirstGo (key :: seen) rest
    else keepFirstGo seen rest

/-- Spec-side deduplication: first occurrence of each `(amount, section)`
pair wins; later exact duplicates are dropped. -/
def keepFirstByKey (prices : List PriceData) : List PriceData :=
  keepFirstGo [] prices

/-
`APICache` (api_cache.py).  Both `set` and `get` compare the TEXT column
`expires_at` against `datetime.now().isoformat()`; both sides are
T-separated ISO strings of the same shape, on which the lexicographic TEXT
comparison agrees with chronological order, so these instants are modelled
as naturals (microseconds).  `_generate_cache_key` is a SHA-256 hex digest;
both `set` and `get` apply it to the caller's key, and no property proved
here depends on the digest itself, so it is modelled as the identity
encoding of the key.
-/

/-- One row of the `api_cache` table (api_cache.py 52-61). -/
structure CacheEntry where
  value : String
  expiresAt : Nat
  createdAt : Nat
  accessedAt : Nat
  accessCount : Nat
deriving DecidableEq

/-- The cache table plus the `APICache` configuration fields
(api_cache.py 29-46).  Rows are listed in rowid (insertion) order. -/
structure CacheState where
  entries : List (String × CacheEntry)
  maxCacheSize : Nat
  cacheDurationMinutes : Nat
deriving DecidableEq

/-- `APICache._generate_cache_key` (api_cache.py 77-87); see the comment
above on the digest. -/
def generateCacheKey (key : String) : String := key

/-- `APICache.cleanup_expired` (api_cache.py 220-242): delete rows with
`expires_at <= now`. -/
def cleanupExpired (st : CacheState) (now : Nat) : CacheState :=
  { st with entries := st.entries.filter fun e => decide (now < e.2.expiresAt) }

/-- Stable insertion into a list ordered by ascending `accessedAt`,
modelling `ORDER BY accessed_at ASC` with ties left in table order. -/
def insertByAccessed (x : String × CacheEntry) :
    List (String × CacheEntry) → List (String × CacheEntry)
  | [] => [x]
  | y :: ys =>
    if y.2.accessedAt ≤ x.2.accessedAt then y :: insertByAccessed x ys else x :: y :: ys

/-- Rows sorted by ascending `accessedAt` (stable). -/
def sortByAccessed : List (String × CacheEntry) → List (String × CacheEntry)
  | [] => []
  | x :: xs => insertByAccessed x (sortByAccessed xs)

/-- `APICache._cleanup_cache` (api_cache.py 244-272): sweep expired rows,
then, if still above the ceiling, delete the `size - max + 100`
least-recently-accessed rows. -/
def cleanupCache (st : CacheState) (now : Nat) : CacheState :=
  let st1 := cleanupExpired st now
  if st1.entries.length ≤ st.maxCacheSize then st1
  else
    let itemsToRemove := st1.entries.length - st.maxCacheSize + 100
    { st1 with entries := (sortByAccessed st1.entries).drop itemsToRemove }

/-- `APICache.set` (api_cache.py 128-170).  `duration_minutes or
self.cache_duration_minutes` falls back to the default when the override is
`None` or `0`.  `INSERT OR REPLACE` on the unique `cache_key` deletes any
conflicting row and appends the new one; `access_count` takes its column
default 1.  When the table then exceeds `max_cache_size`, `_cleanup_cache`
runs.  The value is stored serialized (`json.dumps`); serialization is
modelled as the stored string itself. -/
def cacheSet (st : CacheState) (key value : String) (durationMinutes : Option Nat)
    (now : Nat) : CacheState :=
  let ck := generateCacheKey key
  let duration :=
    match durationMinutes with
    | some d => if d = 0 then st.cacheDurationMinutes else d
    | Option.none => st.cacheDurationMinutes
  let expiresAt := now + duration * 60000000
  let st1 :=
    { st with entries :=
        (st.entries.filter fun e => decide (e.1 ≠ ck)) ++
          [(ck, { value := value, expiresAt := expiresAt, createdAt := now,
                  accessedAt := now, accessCount := 1 })] }
  if st.maxCacheSize < st1.entries.length then cleanupCache st1 now else st1

/-- `APICache.get` (api_cache.py 89-126), value part: the row with this key
and `expires_at > now`, else a miss.  `json.loads` of the stored
serialization returns the stored value, modelled as the stored string. -/
def cacheGetValue (st : CacheState) (key : String) (now : Nat) : Option String :=
  let ck := generateCacheKey key
  match st.entries.find? (fun e => decide (e.1 = ck) && decide (now < e.2.expiresAt)) with
  | some e => some e.2.value
  | Option.none => Option.none

/-- `APICache.get` (api_cache.py 89-126), state part: on a hit the row's
access statistics are updated. -/
def cacheGetState (st : CacheState) (key : String) (now : Nat) : CacheState :=
  let ck := generateCacheKey key
  match st.entries.find? (fun e => decide (e.1 = ck) && decide (now < e.2.expiresAt)) with
  | some _ =>
    { st with entries := st.entries.map fun e =>
        if e.1 = ck then
          (e.1, { e.2 with accessedAt := now, accessCount := e.2.accessCount + 1 })
        else e }
  | Option.none => st

/-- `APICache.get_expiry_time` (api_cache.py 379-404): the `expires_at` of
the row with this key, regardless of expiry. -/
def getExpiryTime (st : CacheState) (key : String) : Option Nat :=
  (st.entries.find? fun e => decide (e.1 = generateCacheKey key)).map fun e => e.2.expiresAt

/-
`RateLimiter` (rate_limiter.py).  `record_request` binds `datetime.now()`
directly as a query parameter; Python's sqlite3 default adapter stores it as
`val.isoformat(" ")`, i.e. `YYYY-MM-DD HH:MM:SS.ffffff` with a SPACE
separator.  `get_current_usage` compares that TEXT column against
`cutoff_time.isoformat()`, i.e. `YYYY-MM-DDTHH:MM:SS.ffffff` with a `T`
separator.  The `request_time` column has NUMERIC affinity, but neither
string is a well-formed number, so SQLite compares them as TEXT with the
BINARY (bytewise) collation.  A timestamp is modelled as its calendar date
(as an ordinal whose zero-padded `YYYY-MM-DD` rendering is lexicographically
monotone) plus the time of day in microseconds (whose zero-padded
`HH:MM:SS[.ffffff]` rendering is lexicographically monotone).
-/

/-- A `datetime` value split as date ordinal plus time of day in
microseconds (`tod < 86400000000`). -/
structure PyDateTime where
  day : Nat
  tod : Nat
deriving DecidableEq

/-- Microseconds since the epoch of day 0. -/
def PyDateTime.instant (t : PyDateTime) : Nat := t.day * 86400000000 + t.tod

/-- `t - timedelta(seconds=w)`, renormalized into day/time-of-day form. -/
def dtSubSeconds (t : PyDateTime) (w : Nat) : PyDateTime :=
  let i := t.instant - w * 1000000
  { day := i / 86400000000, tod := i % 86400000000 }

/-- Bytewise `>=` between a SPACE-separated stored timestamp string and a
T-separated cutoff string.  The fixed-width date fields compare first; at
equal dates the comparison is decided by the separator bytes, and
`' '` (0x20) < `'T'` (0x54), so a stored string on the cutoff's own date is
always strictly below the cutoff string, whatever its time of day. -/
def storedGeIsoCutoff (stored cutoff : PyDateTime) : Bool :=
  decide (cutoff.day < stored.day)

/-- One row of the `rate_limits` table (rate_limiter.py 53-59). -/
structure RLRecord where
  serviceName : String
  requestTime : PyDateTime
deriving DecidableEq

/-- The `rate_limits` table in rowid order. -/
abbrev RLState := List RLRecord

/-- `RateLimiter.record_request` (rate_limiter.py 90-102): insert
`(service_name, datetime.now())`; the datetime is stored via the sqlite3
default adapter (space-separated ISO text). -/
def recordRequest (st : RLState) (service : String) (now : PyDateTime) : RLState :=
  st ++ [{ serviceName := service, requestTime := now }]

/-- `RateLimiter.get_current_usage` (rate_limiter.py 104-124): count rows of
this service whose stored `request_time` text is `>=` the cutoff's
`isoformat()` text, where the cutoff is `now - timedelta(seconds=window)`. -/
def getCurrentUsage (st : RLState) (service : String) (timeWindow : Nat)
    (now : PyDateTime) : Nat :=
  let cutoff := dtSubSeconds now timeWindow
  (st.filter fun r =>
    decide (r.serviceName = service) && storedGeIsoCutoff r.requestTime cutoff).length

/-- `RateLimiter.can_make_request` (rate_limiter.py 71-88), on a readable
store: true iff current usage is below `max_requests`. -/
def canMakeRequest (st : RLState) (service : String) (maxRequests timeWindow : Nat)
    (now : PyDateTime) : Bool :=
  decide (getCurrentUsage st service timeWindow now < maxRequests)

/-
`TicketmasterAPI._parse_event_details` and `get_event_details`
(ticketmaster_api.py 173-216, 304-367).  JSON values / Python objects are
modelled by `PyVal`; a Python `dict` is an association list with unique keys
in insertion order.  Both functions wrap their bodies in
`try ... except Exception: return None`, so every exceptional path is
modelled as `Option.none`.
-/

/-- A Python/JSON value as handled by the API client. -/
inductive PyVal where
  | none
  | str (s : String)
  | num (q : ℚ)
  | boolean (b : Bool)
  | list (xs : List PyVal)
  | dict (fields : List (String × PyVal))

/-- Python `dict.get(k)` without default: the value, or `None` (here the
outer `Option.none`) when the key is absent. -/
def dictGet (fields : List (String × PyVal)) (k : String) : Option PyVal :=
  (fields.find? fun p => decide (p.1 = k)).map fun p => p.2

/-- Python truthiness of a `PyVal`. -/
def PyVal.truthy : PyVal → Bool
  | .none => false
  | .str s => !s.data.isEmpty
  | .num q => decide (q ≠ 0)
  | .boolean b => b
  | .list xs => !xs.isEmpty
  | .dict fs => !fs.isEmpty

/-- The fields of a value that must be a dict; `Option.none` models the
`AttributeError`/`TypeError` the Python code would raise (and then catch). -/
def asDict : PyVal → Option (List (String × PyVal))
  | .dict fs => some fs
  | _ => Option.none

/-- `k in xs` for a Python list: membership by equality; only string
elements can equal the string key. -/
def listContainsStr (xs : List PyVal) (k : String) : Bool :=
  xs.any fun x =>
    match x with
    | .str s => decide (s = k)
    | _ => false

/-- `sub in s` for Python strings: substring containment. -/
def strContains (s sub : String) : Bool :=
  decide ((s.splitOn sub).length > 1)

/-- Lines 315-322 of ticketmaster_api.py: pick `response['_embedded']['events'][0]`
when present and non-empty (`if not events: return None`), else use the
response itself; shape mismatches model the exceptions the subscripting
would raise. -/
def selectEvent (response : PyVal) : Option PyVal :=
  match response with
  | .dict rf =>
    match dictGet rf "_embedded" with
    | some (.dict ef) =>
      if ef.any (fun p => decide (p.1 = "events")) then
        match dictGet ef "events" with
        | some evs =>
          if evs.truthy then
            match evs with
            | .list (e :: _) => some e
            | _ => Option.none
          else Option.none
        | Option.none => some response
      else some response
    | some (.list xs) => if listContainsStr xs "events" then Option.none else some response
    | some (.str s) => if strContains s "events" then Option.none else some response
    | some _ => Option.none
    | Option.none => some response
  | .list xs => if listContainsStr xs "_embedded" then Option.none else some response
  | .str s => if strContains s "_embedded" then Option.none else some response
  | _ => Option.none

/-- One entry of `event_data['price_ranges']` (ticketmaster_api.py 354-361). -/
def parseRange (pr : PyVal) : Option PyVal :=
  match pr with
  | .dict pfs =>
    some (.dict [("type", (dictGet pfs "type").getD .none),
                 ("currency", (dictGet pfs "currency").getD .none),
                 ("min", (dictGet pfs "min").getD .none),
                 ("max", (dictGet pfs "max").getD .none)])
  | _ => Option.none

/-- The `for price_range in event.get('priceRanges', [])` loop
(ticketmaster_api.py 353-361).  Iterating a non-empty dict or string would
yield keys/characters on which `.get` raises; a non-iterable raises
`TypeError`. -/
def parseRangesList (efields : List (String × PyVal)) : Option (List PyVal) :=
  match (dictGet efields "priceRanges").getD (.list []) with
  | .list prs => prs.mapM parseRange
  | .dict fs => if fs.isEmpty then some [] else Option.none
  | .str s => if s.data.isEmpty then some [] else Option.none
  | _ => Option.none

/-- The venue block (ticketmaster_api.py 333-341). -/
def parseVenueAdd (efields : List (String × PyVal)) : Option (List (String × PyVal)) :=
  match dictGet efields "_embedded" with
  | some (.dict ef2) =>
    if ef2.any (fun p => decide (p.1 = "venues")) then
      match dictGet ef2 "venues" with
      | some (.list (v :: _)) =>
        match v with
        | .dict vf =>
          match asDict ((dictGet vf "city").getD (.dict [])),
                asDict ((dictGet vf "state").getD (.dict [])),
                asDict ((dictGet vf "country").getD (.dict [])) with
          | some cityFs, some stateFs, some countryFs =>
            some [("venue", (dictGet vf "name").getD .none),
                  ("city", (dictGet cityFs "name").getD .none),
                  ("state", (dictGet stateFs "name").getD .none),
                  ("country", (dictGet countryFs "name").getD .none)]
          | _, _, _ => Option.none
        | _ => Option.none
      | some (.list []) => Option.none
      | some _ => Option.none
      | Option.none => Option.none
    else some []
  | some (.list xs) => if listContainsStr xs "venues" then Option.none else some []
  | some (.str s) => if strContains s "venues" then Option.none else some []
  | some _ => Option.none
  | Option.none => some []

/-- The date block (ticketmaster_api.py 343-351). -/
def parseDatesAdd (dfs : List (String × PyVal)) : Option (List (String × PyVal)) :=
  if dfs.any (fun p => decide (p.1 = "start")) then
    match dictGet dfs "start" with
    | some (.dict stf) =>
      some [("date", (dictGet stf "localDate").getD .none),
            ("time", (dictGet stf "localTime").getD .none),
            ("timezone", (dictGet stf "timeZone").getD .none)]
    | _ => Option.none
  else some []

/-- `TicketmasterAPI._parse_event_details` (ticketmaster_api.py 304-367):
the returned dict carries keys `id`, `name`, `url`, `status`,
`price_ranges` (in that insertion order), then the venue keys and date keys
when their blocks apply.  All exceptional paths collapse to `Option.none`
(the `except` returns `None`), so the blocks may be sequenced in any
order. -/
def parseEventDetails (response : PyVal) : Option (List (String × PyVal)) :=
  match selectEvent response with
  | Option.none => Option.none
  | some event =>
    match asDict event with
    | Option.none => Option.none
    | some efields =>
      match asDict ((dictGet efields "dates").getD (.dict [])) with
      | Option.none => Option.none
      | some dfs =>
        match asDict ((dictGet dfs "status").getD (.dict [])) with
        | Option.none => Option.none
        | some sfs =>
          match parseRangesList efields, parseVenueAdd efields, parseDatesAdd dfs with
          | some ranges, some venueAdd, some datesAdd =>
            some ([("id", (dictGet efields "id").getD .none),
                   ("name", (dictGet efields "name").getD .none),
                   ("url", (dictGet efields "url").getD .none),
                   ("status", (dictGet sfs "code").getD (.str "unknown")),
                   ("price_ranges", .list ranges)] ++ venueAdd ++ datesAdd)
          | _, _, _ => Option.none

/-- Outcome of `TicketmasterAPI._make_request` as seen by
`get_event_details`: a 200 body, a 404 (`None`), or a raised exception
(timeout, connection error, 401 authentication failure, 429 rate limit,
or any other API error). -/
inductive ApiResult where
  | ok (response : PyVal)
  | notFound
  | failure

/-- `TicketmasterAPI.get_event_details` (ticketmaster_api.py 173-216):
falsy or missing responses yield `None`; raised exceptions are caught and
yield `None`; otherwise the parsed event data is returned (a `None` parse
hits the `.get` on the log line, raises, and is caught, also `None`). -/
def getEventDetails : ApiResult → Option (List (String × PyVal))
  | .failure => Option.none
  | .notFound => Option.none
  | .ok resp => if resp.truthy then parseEventDetails resp else Option.none

/-
`PriceMonitor` (price_monitor.py).  Per-event environment data (what the
collaborators would answer during `_check_concert_price`) is collected in
`CheckEnv`; the result dict's fields that the function actually writes are
collected in `CheckResult`.  `add_price_record` calls are logged in
`storedRecords`; `alertAttempted` records that `send_price_alert` was
invoked (exactly once per event), `alertSent` its truthy return value.
-/

/-- A tracked concert (models.py `Concert`: the fields the monitor uses). -/
structure Concert where
  eventId : String
  name : String
  thresholdPrice : ℚ
deriving DecidableEq

/-- Python `min(a, rest)`: replace the running minimum on strictly smaller
elements. -/
def qmin (a b : ℚ) : ℚ := if b < a then b else a

/-- `min` of a non-empty list, Python-style. -/
def listMinQ (a : ℚ) (rest : List ℚ) : ℚ := rest.foldl qmin a

/-- Per-event environment for one `_check_concert_price` call. -/
structure CheckEnv where
  apiResult : ApiResult
  enableScraping : Bool
  scrapeResult : List (String × ℚ)
  prevPrice : String → Option ℚ
  sectionThresholds : List (String × List (String × ℚ))
  minPriceDropPercent : ℚ
  emailSendOk : Bool

/-- One `section_change_data` dict (price_monitor.py 239-251). -/
structure SectionChange where
  current : ℚ
  previous : Option ℚ
  change : Option ℚ
  changePercent : Option ℚ
deriving DecidableEq

/-- Lines 239-251 of price_monitor.py: delta and percentage against the
previous recorded price of the same section.  `previous` is the price of
the `get_latest_section_price` row when one exists (the `PriceHistory`
object itself is always truthy); the percentage is computed only when that
price is positive.  The code converts the percentage with `float(...)`; we
keep the exact value. -/
def mkSectionChange (price : ℚ) (previous : Option ℚ) : SectionChange :=
  match previous with
  | Option.none =>
    { current := price, previous := Option.none, change := Option.none,
      changePercent := Option.none }
  | some pv =>
    if 0 < pv then
      { current := price, previous := some pv, change := some (price - pv),
        changePercent := some ((price - pv) / pv * 100) }
    else
      { current := price, previous := some pv, change := some (price - pv),
        changePercent := Option.none }

/-- `PriceMonitor._get_section_threshold` (price_monitor.py 331-345). -/
def getSectionThreshold (thresholds : List (String × List (String × ℚ)))
    (eventId sectionLabel : String) (dflt : ℚ) : ℚ :=
  match thresholds.find? fun p => decide (p.1 = eventId) with
  | some p =>
    match p.2.find? fun q => decide (q.1 = sectionLabel) with
    | some q => q.2
    | Option.none => dflt
  | Option.none => dflt

/-- Python dict item assignment `d[k] = v`: replace in place or append. -/
def assocSet {α : Type} (l : List (String × α)) (k : String) (v : α) : List (String × α) :=
  if l.any (fun p => decide (p.1 = k)) then
    l.map fun p => if p.1 = k then (k, v) else p
  else l ++ [(k, v)]

/-- The `result['section_changes']` dict built by the loop at
price_monitor.py 234-253. -/
def buildChanges (env : CheckEnv) (sp : List (String × ℚ)) :
    List (String × SectionChange) :=
  sp.foldl (fun acc p => assocSet acc p.1 (mkSectionChange p.2 (env.prevPrice p.1))) []

/-- One entry of `sections_below_threshold` (price_monitor.py 278-283). -/
structure BelowEntry where
  sectionName : String
  current : ℚ
  threshold : ℚ
deriving DecidableEq

/-- One entry of `significant_drops` (price_monitor.py 286-294). -/
structure DropEntry where
  sectionName : String
  previous : Option ℚ
  current : ℚ
  dropPercent : ℚ
  threshold : ℚ
deriving DecidableEq

/-- The fields of the `result` dict that `_check_concert_price` writes. -/
structure CheckResult where
  priceFound : Bool
  alertSent : Bool
  alertAttempted : Bool
  error : Option String
  usedScraper : Bool
  dataSource : String
  sectionPrices : List (String × ℚ)
  sectionChanges : List (String × SectionChange)
  sectionsBelowThreshold : List BelowEntry
  significantDrops : List DropEntry
  alertPrevious : Option ℚ
  alertCurrent : Option ℚ
  storedRecords : List (String × ℚ)
deriving DecidableEq

/-- The `result` dict as initialized at price_monitor.py 181-192. -/
def emptyCheckResult : CheckResult :=
  { priceFound := false, alertSent := false, alertAttempted := false,
    error := Option.none, usedScraper := false, dataSource := "",
    sectionPrices := [], sectionChanges := [], sectionsBelowThreshold := [],
    significantDrops := [], alertPrevious := Option.none,
    alertCurrent := Option.none, storedRecords := [] }

/-- Python `abs` on an exact decimal. -/
def qabs (q : ℚ) : ℚ := if q < 0 then -q else q

/-- The below-threshold check of the loop at price_monitor.py 273-294:
a section enters `sections_below_threshold` when its current price is at
most its effective threshold. -/
def belowOf (c : Concert) (env : CheckEnv)
    (changes : List (String × SectionChange)) : List BelowEntry :=
  changes.filterMap fun sc =>
    if sc.2.current ≤ getSectionThreshold env.sectionThresholds c.eventId sc.1 c.thresholdPrice then
      some { sectionName := sc.1, current := sc.2.current,
             threshold := getSectionThreshold env.sectionThresholds c.eventId sc.1 c.thresholdPrice }
    else Option.none

/-- The significant-drop check of the same loop: a section enters
`significant_drops` when its percentage change is non-null and at most
`-min_price_drop_percent`. -/
def dropsOf (c : Concert) (env : CheckEnv)
    (changes : List (String × SectionChange)) : List DropEntry :=
  changes.filterMap fun sc =>
    match sc.2.changePercent with
    | some pct =>
      if pct ≤ -env.minPriceDropPercent then
        some { sectionName := sc.1, previous := sc.2.previous,
               current := sc.2.current, dropPercent := qabs pct,
               threshold := getSectionThreshold env.sectionThresholds c.eventId sc.1 c.thresholdPrice }
      else Option.none
    | Option.none => Option.none

/-- The previous-price selection at price_monitor.py 306-311: the previous
price of the first section in iteration order whose current price equals
the minimum alert price and whose previous price is truthy, defaulting to
the minimum alert price itself (line 307). -/
def alertPrevChoice (changes : List (String × SectionChange)) (minAlert : ℚ) : ℚ :=
  match changes.find? (fun sc =>
      decide (sc.2.current = minAlert) && optTruthyQ sc.2.previous) with
  | some sc => sc.2.previous.getD minAlert
  | Option.none => minAlert

/-- The result dict of a found-price check before the alert block
(price_monitor.py 226-297). -/
def processBase (c : Concert) (env : CheckEnv) (usedScraper : Bool)
    (dataSource : String) (sp : List (String × ℚ)) : CheckResult :=
  { emptyCheckResult with
    priceFound := true, usedScraper := usedScraper, dataSource := dataSource,
    sectionPrices := sp, sectionChanges := buildChanges env sp, storedRecords := sp,
    sectionsBelowThreshold := belowOf c env (buildChanges env sp),
    significantDrops := dropsOf c env (buildChanges env sp) }

/-- Lines 222-323 of `_check_concert_price`: record every section price,
compute per-section changes, evaluate thresholds and drops, and send at
most one alert with the minimum alerting price and the previous price
chosen by `alertPrevChoice`. -/
def processSections (c : Concert) (env : CheckEnv) (usedScraper : Bool)
    (dataSource : String) (sp : List (String × ℚ)) : CheckResult :=
  if sp.isEmpty then { emptyCheckResult with usedScraper := usedScraper }
  else
    if !(dropsOf c env (buildChanges env sp)).isEmpty ||
       !(belowOf c env (buildChanges env sp)).isEmpty then
      match (belowOf c env (buildChanges env sp)).map (fun b => b.current) ++
            (dropsOf c env (buildChanges env sp)).map (fun d => d.current) with
      | [] => processBase c env usedScraper dataSource sp
      | a :: rest =>
        { processBase c env usedScraper dataSource sp with
          alertAttempted := true, alertSent := env.emailSendOk,
          alertPrevious := some (alertPrevChoice (buildChanges env sp) (listMinQ a rest)),
          alertCurrent := some (listMinQ a rest) }
    else processBase c env usedScraper dataSource sp

/-- The `float('inf')`/`min` computation over `event_details['priceRanges']`
entries that pass the truthy-`min` filter (price_monitor.py 202-203): the
exact values collected in order, or the exception the expression raises. -/
def rangeMinVal : PyVal → Except String (Option ℚ)
  | .dict pfs =>
    match dictGet pfs "min" with
    | some v =>
      if v.truthy then
        match v with
        | .num q => .ok (some q)
        | _ => .error "TypeError: float() argument"
      else .ok Option.none
    | Option.none => .ok Option.none
  | _ => .error "AttributeError: get"

/-- Collect the filtered minimum values of all price ranges, propagating
the first exception. -/
def collectMins : List PyVal → Except String (List ℚ)
  | [] => .ok []
  | pr :: rest => do
    let v ← rangeMinVal pr
    let tail ← collectMins rest
    match v with
    | some q => .ok (q :: tail)
    | Option.none => .ok tail

/-- The API branch of `_check_concert_price` (price_monitor.py 194-207):
`current_price` stays `None` unless the parsed event details are truthy and
carry a truthy `priceRanges` key; `min()` over an empty filtered sequence
raises `ValueError`, which the enclosing `try` turns into an error result.
(`min_price != float('inf')` always holds on the non-raising path, since
every collected value passed the truthy filter.) -/
def apiPriceStep (env : CheckEnv) : Except String (Option ℚ) :=
  match getEventDetails env.apiResult with
  | Option.none => .ok Option.none
  | some ed =>
    let prOpt := dictGet ed "priceRanges"
    let cond := !ed.isEmpty &&
      (match prOpt with
       | some v => v.truthy
       | Option.none => false)
    if cond then
      match prOpt with
      | some (.list prs) => do
        let vals ← collectMins prs
        match vals with
        | [] => .error "ValueError: min() arg is an empty sequence"
        | v :: vs => .ok (some (listMinQ v vs))
      | _ => .error "TypeError: price ranges not iterable"
    else .ok Option.none

/-- `PriceMonitor._check_concert_price` (price_monitor.py 169-329): try the
API branch; on a falsy `current_price` with scraping enabled, use the
scraper's section prices (`_scrape_event_prices` catches its own failures
and returns `{}`); a truthy API price becomes the single `General` entry;
then process the obtained sections.  An exception inside the `try` yields
the result dict with only `error` set. -/
def checkConcertPrice (c : Concert) (env : CheckEnv) : CheckResult :=
  match apiPriceStep env with
  | .error msg => { emptyCheckResult with error := some msg }
  | .ok currentPrice =>
    let scrapeUsed := !optTruthyQ currentPrice && env.enableScraping
    let scraped := if scrapeUsed then env.scrapeResult else []
    let dataSource := if scrapeUsed && !scraped.isEmpty then "scraping" else "api"
    let sp :=
      match currentPrice with
      | some q => if decide (q ≠ 0) then [("General", q)] else scraped
      | Option.none => scraped
    processSections c env scrapeUsed dataSource sp

/-- The cycle summary dict of `check_all_prices` (price_monitor.py 126-141). -/
structure CycleResults where
  totalConcerts : Nat
  pricesChecked : Nat
  alertsSent : Nat
  errors : Nat
  results : List CheckResult
deriving DecidableEq

/-- One iteration of the loop at price_monitor.py 143-162.
`_check_concert_price` catches every exception inside its own body and
returns a result dict, so the `except` branch of this loop (which would
increment `errors`) is unreachable for API, scraping, or alert failures. -/
def checkCycleStep (acc : CycleResults) (item : Concert × CheckEnv) : CycleResults :=
  let r := checkConcertPrice item.1 item.2
  { acc with
    results := acc.results ++ [r],
    pricesChecked := acc.pricesChecked + (if r.priceFound then 1 else 0),
    alertsSent := acc.alertsSent + (if r.alertSent then 1 else 0) }

/-- `PriceMonitor.check_all_prices` (price_monitor.py 115-167): process
every tracked concert in order and aggregate the cycle summary. -/
def checkAllPrices (items : List (Concert × CheckEnv)) : CycleResults :=
  if items.isEmpty then
    { totalConcerts := 0, pricesChecked := 0, alertsSent := 0, errors := 0, results := [] }
  else
    items.foldl checkCycleStep
      { totalConcerts := items.length, pricesChecked := 0, alertsSent := 0,
        errors := 0, results := [] }

/-! ### Supporting lemmas -/

theorem dedupGo_eq_keepFirstGo (l : List PriceData) :
    ∀ seen : List (ℚ × String), (∀ p ∈ l, 0 < p.price) →
      dedupGo seen l = keepFirstGo seen l := by
  induction l with
  | nil => intro seen _; rfl
  | cons p rest ih =>
    intro seen h
    have hp : 0 < p.price := h p (List.mem_cons_self _ _)
    have hrest : ∀ q ∈ rest, 0 < q.price := fun q hq => h q (List.mem_cons_of_mem _ hq)
    by_cases hm : (p.price, p.sectionName) ∈ seen
    · simp [dedupGo, keepFirstGo, hm, ih seen hrest]
    · simp [dedupGo, keepFirstGo, hm, hp, ih _ hrest]

theorem mem_dedupGo_pos (l : List PriceData) :
    ∀ (seen : List (ℚ × String)) (e : PriceData), e ∈ dedupGo seen l → 0 < e.price := by
  induction l with
  | nil => intro seen e he; simp [dedupGo] at he
  | cons p rest ih =>
    intro seen e he
    simp only [dedupGo] at he
    by_cases hc : (!seen.contains (p.price, p.sectionName) && decide (0 < p.price)) = true
    · rw [if_pos hc] at he
      rcases List.mem_cons.mp he with h1 | h2
      · have hp : decide (0 < p.price) = true := (Bool.and_eq_true _ _ |>.mp hc).2
        subst h1; exact of_decide_eq_true hp
      · exact ih _ e h2
    · rw [if_neg hc] at he; exact ih _ e he

theorem reMatches_priceNum_of_noDigit {cs : List Char}
    (h : ∀ c ∈ cs, c.isDigit = false) : reMatches priceNumPattern cs = [] := by
  cases cs with
  | nil => rfl
  | cons c cs' =>
    have hc : isDigitB c = false := h c (List.mem_cons_self _ _)
    simp [priceNumPattern, digitPlus, reMatches, hc]

theorem searchCap_priceNum_of_noDigit {cs : List Char}
    (h : ∀ c ∈ cs, c.isDigit = false) :
    searchCapAux priceNumPattern cs = Option.none := by
  induction cs with
  | nil => simp [searchCapAux, reMatches_priceNum_of_noDigit h]
  | cons c rest ih =>
    have hrest : ∀ x ∈ rest, x.isDigit = false := fun x hx => h x (List.mem_cons_of_mem _ hx)
    simp [searchCapAux, reMatches_priceNum_of_noDigit h, ih hrest]

theorem find?_append_of_none {α : Type} (l1 l2 : List α) (p : α → Bool)
    (h : l1.find? p = Option.none) : (l1 ++ l2).find? p = l2.find? p := by
  induction l1 with
  | nil => rfl
  | cons a l ih =>
    rw [List.cons_append]
    cases hpa : p a with
    | true =>
      rw [List.find?_cons_of_pos _ hpa] at h
      exact absurd h (by simp)
    | false =>
      rw [List.find?_cons_of_neg _ (by simp [hpa])] at h
      rw [List.find?_cons_of_neg _ (by simp [hpa])]
      exact ih h

theorem filter_ne_find_none (entries : List (String × CacheEntry)) (ck : String)
    (p : String × CacheEntry → Bool) (hp : ∀ e, e.1 ≠ ck → p e = false) :
    (entries.filter fun e => decide (e.1 ≠ ck)).find? p = Option.none := by
  rw [List.find?_eq_none]
  intro x hx
  have hne : x.1 ≠ ck := by
    have := (List.mem_filter.mp hx).2
    simpa using this
  simp [hp x hne]

theorem cacheSet_no_evict (st : CacheState) (key value : String) (durOpt : Option Nat)
    (nowSet : Nat)
    (hsize : (st.entries.filter fun e => decide (e.1 ≠ generateCacheKey key)).length + 1 ≤
      st.maxCacheSize) :
    cacheSet st key value durOpt nowSet =
      { st with entries :=
          (st.entries.filter fun e => decide (e.1 ≠ generateCacheKey key)) ++
            [(generateCacheKey key,
              { value := value,
                expiresAt := nowSet +
                  (match durOpt with
                   | some d => if d = 0 then st.cacheDurationMinutes else d
                   | Option.none => st.cacheDurationMinutes) * 60000000,
                createdAt := nowSet, accessedAt := nowSet, accessCount := 1 })] } := by
  simp only [cacheSet]
  rw [if_neg]
  simp only [List.length_append, List.length_cons, List.length_nil]
  omega

theorem getExpiry_after_set (st : CacheState) (key value : String) (durOpt : Option Nat)
    (nowSet : Nat)
    (hsize : (st.entries.filter fun e => decide (e.1 ≠ generateCacheKey key)).length + 1 ≤
      st.maxCacheSize) :
    getExpiryTime (cacheSet st key value durOpt nowSet) key =
      some (nowSet +
        (match durOpt with
         | some d => if d = 0 then st.cacheDurationMinutes else d
         | Option.none => st.cacheDurationMinutes) * 60000000) := by
  rw [cacheSet_no_evict st key value durOpt nowSet hsize]
  unfold getExpiryTime
  rw [find?_append_of_none _ _ _
    (filter_ne_find_none st.entries (generateCacheKey key) _
      (fun e he => by simp [he]))]
  simp [List.find?]

/-! ### Claims -/

theorem parseVenueAdd_keys (efields : List (String × PyVal)) (l : List (String × PyVal))
    (h : parseVenueAdd efields = some l) :
    ∀ p ∈ l, p.1 = "venue" ∨ p.1 = "city" ∨ p.1 = "state" ∨ p.1 = "country" := by
  have hkeys : l = [] ∨
      ∃ a b c d, l = [("venue", a), ("city", b), ("state", c), ("country", d)] := by
    unfold parseVenueAdd at h
    repeat' split at h
    all_goals first
      | exact Or.inl (Option.some.inj h).symm
      | exact Or.inr ⟨_, _, _, _, (Option.some.inj h).symm⟩
      | exact absurd h (by simp)
  intro p hp
  rcases hkeys with rfl | ⟨a, b, c, d, rfl⟩
  · simp at hp
  · simp only [List.mem_cons, List.not_mem_nil, or_false] at hp
    rcases hp with hp | hp | hp | hp <;> rw [hp]
    · exact Or.inl rfl
    · exact Or.inr (Or.inl rfl)
    · exact Or.inr (Or.inr (Or.inl rfl))
    · exact Or.inr (Or.inr (Or.inr rfl))

theorem parseDatesAdd_keys (dfs : List (String × PyVal)) (l : List (String × PyVal))
    (h : parseDatesAdd dfs = some l) :
    ∀ p ∈ l, p.1 = "date" ∨ p.1 = "time" ∨ p.1 = "timezone" := by
  have hkeys : l = [] ∨
      ∃ a b c, l = [("date", a), ("time", b), ("timezone", c)] := by
    unfold parseDatesAdd at h
    repeat' split at h
    all_goals first
      | exact Or.inl (Option.some.inj h).symm
      | exact Or.inr ⟨_, _, _, (Option.some.inj h).symm⟩
      | exact absurd h (by simp)
  intro p hp
  rcases hkeys with rfl | ⟨a, b, c, rfl⟩
  · simp at hp
  · simp only [List.mem_cons, List.not_mem_nil, or_false] at hp
    rcases hp with hp | hp | hp <;> rw [hp]
    · exact Or.inl rfl
    · exact Or.inr (Or.inl rfl)
    · exact Or.inr (Or.inr rfl)

/-- Every dict returned by `_parse_event_details` lacks the `priceRanges`
key: the parser stores the ranges under `price_ranges` (snake case), and
the other keys it can emit are fixed. -/
theorem parseEventDetails_no_priceRanges (response : PyVal) (ed : List (String × PyVal))
    (h : parseEventDetails response = some ed) :
    dictGet ed "priceRanges" = Option.none := by
  have hed : ∃ (efields dfs : List (String × PyVal)) (i n u st : PyVal)
      (ranges : List PyVal) (venueAdd datesAdd : List (String × PyVal)),
      parseVenueAdd efields = some venueAdd ∧ parseDatesAdd dfs = some datesAdd ∧
      ed = [("id", i), ("name", n), ("url", u), ("status", st),
            ("price_ranges", PyVal.list ranges)] ++ venueAdd ++ datesAdd := by
    unfold parseEventDetails at h
    repeat' split at h
    all_goals first
      | exact ⟨_, _, _, _, _, _, _, _, _, by assumption, by assumption,
          (Option.some.inj h).symm⟩
      | exact absurd h (by simp)
  obtain ⟨efields, dfs, i, n, u, st, ranges, venueAdd, datesAdd, hva, hda, rfl⟩ := hed
  unfold dictGet
  have hfind : ([("id", i), ("name", n), ("url", u), ("status", st),
      ("price_ranges", PyVal.list ranges)] ++ venueAdd ++ datesAdd).find?
        (fun p => decide (p.1 = "priceRanges")) = Option.none := by
    rw [List.find?_eq_none]
    intro x hx
    simp only [List.append_assoc, List.mem_append, List.mem_cons,
      List.not_mem_nil, or_false] at hx
    rcases hx with (hx | hx | hx | hx | hx) | hx | hx
    · rw [hx]; simp
    · rw [hx]; simp
    · rw [hx]; simp
    · rw [hx]; simp
    · rw [hx]; simp
    · rcases parseVenueAdd_keys efields venueAdd hva x hx with hk | hk | hk | hk <;>
        simp [hk]
    · rcases parseDatesAdd_keys dfs datesAdd hda x hx with hk | hk | hk <;>
        simp [hk]
  rw [hfind]
  rfl

/-- The raw Ticketmaster event response used to exhibit C1: it carries a
`priceRanges` array with a minimum price of 50. -/
def c1rawFields : List (String × PyVal) :=
  [("id", .str "G5vYZ1"), ("name", .str "Sample Concert"),
   ("url", .str "https://example.org/event/G5vYZ1"),
   ("priceRanges", .list [.dict [("type", .str "standard"), ("currency", .str "USD"),
                                 ("min", .num 50), ("max", .num 150)]])]

/-- Environment for the C1 check: the API answers with `c1rawFields`,
scraping is enabled, and the scraper would report `Floor` at 80. -/
def c1env : CheckEnv :=
  { apiResult := .ok (.dict c1rawFields), enableScraping := true,
    scrapeResult := [("Floor", 80)], prevPrice := fun _ => Option.none,
    sectionThresholds := [], minPriceDropPercent := 10, emailSendOk := true }

/-- The tracked concert for the C1 check. -/
def c1concert : Concert :=
  { eventId := "G5vYZ1", name := "Sample Concert", thresholdPrice := 40 }

/-- C1 (code_bug evidence): the raw API response carries a truthy
`priceRanges` with minimum 50, but `get_event_details` returns the parsed
dict whose key is `price_ranges`, so `_check_concert_price`'s lookup of
`priceRanges` finds nothing, the API price is never adopted, and the
scraper is invoked, its sections becoming the result — the claim requires
the single `General: 50` result with no scraper call. -/
theorem c1_priceRangesKeyBug :
    (dictGet c1rawFields "priceRanges").isSome = true ∧
    (dictGet ((getEventDetails (ApiResult.ok (PyVal.dict c1rawFields))).getD [])
        "priceRanges").isNone = true ∧
    (dictGet ((getEventDetails (ApiResult.ok (PyVal.dict c1rawFields))).getD [])
        "price_ranges").isSome = true ∧
    (checkConcertPrice c1concert c1env).usedScraper = true ∧
    (checkConcertPrice c1concert c1env).sectionPrices = [("Floor", 80)] ∧
    (checkConcertPrice c1concert c1env).dataSource = "scraping" :=
  ⟨by rfl, by rfl, by rfl, by rfl, by rfl, by rfl⟩

/-- C2 (code_bug evidence): the free-text regex strategy of
`_extract_prices_from_text` extracts nothing from text containing ordinary
price spellings such as `$99.99`, `from $89.50`, or `99.99 USD` — the
doubled backslashes in its raw-string patterns turn `$` into an end anchor
and `\\s`/`\\.` into literal-backslash matches — although `$99.99` parses
to the in-range amount 99.99, for which the claim (and the code's own
comments) promise a PricePoint. -/
theorem c2_regexPatternsBug :
    extractPricesFromText "$99.99" = [] ∧
    extractPricesFromText "Tickets from $89.50" = [] ∧
    extractPricesFromText "99.99 USD" = [] ∧
    parsePriceString "$99.99" = some (mkRat 9999 100) ∧
    (10 : ℚ) ≤ mkRat 9999 100 ∧ (mkRat 9999 100 : ℚ) ≤ 10000 :=
  ⟨by decide, by decide, by decide, by decide, by decide, by decide⟩

/-- C5: for a section with previous recorded price `pPrev` and current
price `pCur`, the computed delta is `pCur - pPrev`; the percentage is
`(pCur - pPrev) / pPrev * 100` when `pPrev > 0` and null when `pPrev = 0`
(no division is attempted). -/
theorem c5_sectionDelta (pCur pPrev : ℚ) :
    (0 < pPrev →
      mkSectionChange pCur (some pPrev) =
        { current := pCur, previous := some pPrev, change := some (pCur - pPrev),
          changePercent := some ((pCur - pPrev) / pPrev * 100) }) ∧
    (pPrev = 0 →
      mkSectionChange pCur (some pPrev) =
        { current := pCur, previous := some pPrev, change := some (pCur - pPrev),
          changePercent := Option.none }) := by
  constructor
  · intro h; simp [mkSectionChange, h]
  · intro h; subst h; simp [mkSectionChange]

/-- Witness for C5 at the spec's example: previous 200.00 and current
150.00 give delta −50.00 and percentage −25.00%. -/
theorem c5_sectionDelta_witness :
    mkSectionChange 150 (some 200) =
      { current := 150, previous := some 200, change := some (-50),
        changePercent := some (-25) } := by
  rw [(c5_sectionDelta 150 200).1 (by norm_num)]
  simp only [SectionChange.mk.injEq, Option.some.injEq]
  norm_num

/-- C6: on strategy outputs (whose amounts are positive), the merge
deduplication keeps the first occurrence of each `(amount, section)` pair
and drops later exact duplicates, while distinct sections with identical
amounts are all retained. -/
theorem c6_dedupKeepFirst (l : List PriceData) (h : ∀ p ∈ l, 0 < p.price) :
    dedupPrices l = keepFirstByKey l :=
  dedupGo_eq_keepFirstGo l [] h

/-- Witness for C6 at the spec's example:
`[("Floor",200.00),("Floor",200.00),("VIP",200.00)]` deduplicates to
`[("Floor",200.00),("VIP",200.00)]`. -/
theorem c6_dedupKeepFirst_witness :
    dedupPrices
        [{ price := 200, source := "element_class", sectionName := "Floor" },
         { price := 200, source := "element_class", sectionName := "Floor" },
         { price := 200, source := "element_class", sectionName := "VIP" }] =
      [{ price := 200, source := "element_class", sectionName := "Floor" },
       { price := 200, source := "element_class", sectionName := "VIP" }] := by
  rw [c6_dedupKeepFirst _ (by with_unfolding_all decide)]
  with_unfolding_all decide

/-- C7: after `set key value`, provided the table stays within its size
ceiling (so the eviction pass does not run), a `get` strictly after the
entry's expiry timestamp is a miss and a `get` strictly before it returns
the stored value unchanged. -/
theorem c7_cacheRoundTrip (st : CacheState) (key value : String) (durOpt : Option Nat)
    (nowSet tGet exp : Nat)
    (hsize : (st.entries.filter fun e => decide (e.1 ≠ generateCacheKey key)).length + 1 ≤
      st.maxCacheSize)
    (hexp : getExpiryTime (cacheSet st key value durOpt nowSet) key = some exp) :
    (exp < tGet → cacheGetValue (cacheSet st key value durOpt nowSet) key tGet = Option.none) ∧
    (tGet < exp → cacheGetValue (cacheSet st key value durOpt nowSet) key tGet = some value) := by
  rw [getExpiry_after_set st key value durOpt nowSet hsize] at hexp
  have hD := Option.some.inj hexp
  rw [cacheSet_no_evict st key value durOpt nowSet hsize]
  constructor
  · intro hgt
    simp only [cacheGetValue]
    rw [find?_append_of_none _ _ _
      (filter_ne_find_none st.entries (generateCacheKey key) _ (fun e he => by simp [he]))]
    rw [hD]
    rw [List.find?_cons_of_neg _ (by simp; omega), List.find?_nil]
  · intro hlt
    simp only [cacheGetValue]
    rw [find?_append_of_none _ _ _
      (filter_ne_find_none st.entries (generateCacheKey key) _ (fun e he => by simp [he]))]
    rw [hD]
    rw [List.find?_cons_of_pos _ (by simp [hlt])]

/-- Witness for C7: on an empty cache with a 30-minute default TTL, setting
at time 0 stores an entry expiring at 1800000000 microseconds; a get after
that instant misses and a get before it returns the value. -/
theorem c7_cacheRoundTrip_witness :
    cacheGetValue
        (cacheSet { entries := [], maxCacheSize := 1000, cacheDurationMinutes := 30 }
          "k" "v" Option.none 0) "k" 1800000001 = Option.none ∧
    cacheGetValue
        (cacheSet { entries := [], maxCacheSize := 1000, cacheDurationMinutes := 30 }
          "k" "v" Option.none 0) "k" 5 = some "v" :=
  ⟨(c7_cacheRoundTrip _ "k" "v" Option.none 0 1800000001 1800000000
      (by decide) (by decide)).1 (by decide),
   (c7_cacheRoundTrip _ "k" "v" Option.none 0 5 1800000000
      (by decide) (by decide)).2 (by decide)⟩

/-- C8 (code_bug evidence): a limiter with `max_requests = 2` and a one-day
window, with both requests recorded inside the trailing window
`[now - W, now]` (at 18:00 and 20:00 on the cutoff's calendar day, with
`now` noon the next day), still reports usage 0 and `can_make_request` true,
because the stored space-separated timestamp text compares below the
T-separated `isoformat()` cutoff text; the claim requires false. -/
theorem c8_timestampFormatBug :
    ((dtSubSeconds { day := 739253, tod := 43200000000 } 86400).instant ≤
        (PyDateTime.instant { day := 739252, tod := 64800000000 }) ∧
      (PyDateTime.instant { day := 739252, tod := 64800000000 }) ≤
        (PyDateTime.instant { day := 739253, tod := 43200000000 })) ∧
    ((dtSubSeconds { day := 739253, tod := 43200000000 } 86400).instant ≤
        (PyDateTime.instant { day := 739252, tod := 72000000000 }) ∧
      (PyDateTime.instant { day := 739252, tod := 72000000000 }) ≤
        (PyDateTime.instant { day := 739253, tod := 43200000000 })) ∧
    getCurrentUsage
        (recordRequest
          (recordRequest [] "default" { day := 739252, tod := 64800000000 })
          "default" { day := 739252, tod := 72000000000 })
        "default" 86400 { day := 739253, tod := 43200000000 } = 0 ∧
    canMakeRequest
        (recordRequest
          (recordRequest [] "default" { day := 739252, tod := 64800000000 })
          "default" { day := 739252, tod := 72000000000 })
        "default" 2 86400 { day := 739253, tod := 43200000000 } = true :=
  ⟨⟨by decide, by decide⟩, ⟨by decide, by decide⟩, by decide, by decide⟩

/-- C9: the uniform price parser returns `None` without raising whenever
the cleaned string (trimmed, commas and dollar signs stripped) contains no
digit, i.e. whenever the `digits[.digits{1,2}]` regex can find no match. -/
theorem c9_parseNoMatch (s : String)
    (h : ∀ c ∈ cleanPriceChars s.data, c.isDigit = false) :
    parsePriceString s = Option.none := by
  unfold parsePriceString
  by_cases he : s.data.isEmpty
  · simp [he]
  · simp [he, searchCap_priceNum_of_noDigit h]

/-- Witness for C9: the digit-free string `N/A` yields no PricePoint. -/
theorem c9_parseNoMatch_witness : parsePriceString "N/A" = Option.none :=
  c9_parseNoMatch "N/A" (by decide)

/-- C10: every entry in the merged, deduplicated output has a strictly
positive amount, and any candidate with amount ≤ 0 is silently removed by
the merge/deduplication step. -/
theorem c10_positivePrices (l : List PriceData) :
    (∀ e ∈ dedupPrices l, 0 < e.price) ∧
    (∀ e ∈ l, e.price ≤ 0 → e ∉ dedupPrices l) := by
  constructor
  · exact fun e he => mem_dedupGo_pos l [] e he
  · intro e _ hle hmem
    exact absurd (mem_dedupGo_pos l [] e hmem) (not_lt.mpr hle)

/-- Witness for C10: a zero-amount candidate from the metadata strategy is
removed during deduplication. -/
theorem c10_positivePrices_witness :
    ({ price := 0, source := "meta_tag", sectionName := "general" } : PriceData) ∉
      dedupPrices
        [{ price := 0, source := "meta_tag", sectionName := "general" },
         { price := 50, source := "element_class", sectionName := "general" }] :=
  (c10_positivePrices _).2 _ (by with_unfolding_all decide) (by norm_num)

theorem foldl_checkCycle_errors (items : List (Concert × CheckEnv)) :
    ∀ acc : CycleResults, (items.foldl checkCycleStep acc).errors = acc.errors := by
  induction items with
  | nil => intro acc; rfl
  | cons it rest ih =>
    intro acc
    rw [List.foldl_cons, ih]
    rfl

theorem foldl_checkCycle_results (items : List (Concert × CheckEnv)) :
    ∀ acc : CycleResults,
      (items.foldl checkCycleStep acc).results =
        acc.results ++ items.map fun it => checkConcertPrice it.1 it.2 := by
  induction items with
  | nil => intro acc; simp
  | cons it rest ih =>
    intro acc
    rw [List.foldl_cons, ih, List.map_cons]
    simp [checkCycleStep]

theorem checkAll_errors (items : List (Concert × CheckEnv)) :
    (checkAllPrices items).errors = 0 := by
  cases items with
  | nil => rfl
  | cons it rest =>
    unfold checkAllPrices
    rw [if_neg (by simp), foldl_checkCycle_errors]

theorem checkAll_results (items : List (Concert × CheckEnv)) :
    (checkAllPrices items).results = items.map fun it => checkConcertPrice it.1 it.2 := by
  cases items with
  | nil => rfl
  | cons it rest =>
    unfold checkAllPrices
    rw [if_neg (by simp), foldl_checkCycle_results]
    rfl

/-- When the API call raises (network, auth, rate limit) the exception is
swallowed inside `get_event_details`, so the check falls through to the
scraping branch; when that yields nothing, the event's result is the
initial result dict with only `usedScraper` reflecting the configuration:
no error is recorded, nothing is stored, no alert is attempted. -/
theorem apiFailure_noData (c : Concert) (env : CheckEnv)
    (hapi : env.apiResult = ApiResult.failure)
    (hscrape : env.enableScraping = false ∨ env.scrapeResult = []) :
    checkConcertPrice c env = { emptyCheckResult with usedScraper := env.enableScraping } := by
  unfold checkConcertPrice apiPriceStep
  rw [hapi]
  simp only [getEventDetails, optTruthyQ, Bool.not_false, Bool.true_and]
  rcases hscrape with h | h
  · rw [h]
    simp [processSections]
  · rw [h]
    cases henable : env.enableScraping <;> simp [processSections]

/-- Environment of the C3 example: the API request fails and scraping is
disabled. -/
def c3envFail : CheckEnv :=
  { apiResult := .failure, enableScraping := false, scrapeResult := [],
    prevPrice := fun _ => Option.none, sectionThresholds := [],
    minPriceDropPercent := 10, emailSendOk := true }

/-- The tracked concert of the C3 example. -/
def c3concertFail : Concert :=
  { eventId := "E3", name := "Event Three", thresholdPrice := 100 }

/-- C3 (counterexample): a cycle over one event whose API call fails ends
with an error count of 0 — the claim requires the count to be incremented.
(`_check_concert_price` never raises: `get_event_details` swallows the
exception and the event is merely counted as price-not-found.) -/
theorem c3_errorCountCounterexample :
    c3envFail.apiResult = ApiResult.failure ∧
    (checkAllPrices [(c3concertFail, c3envFail)]).errors = 0 ∧
    ¬ 1 ≤ (checkAllPrices [(c3concertFail, c3envFail)]).errors ∧
    (checkAllPrices [(c3concertFail, c3envFail)]).results.length = 1 ∧
    (checkConcertPrice c3concertFail c3envFail).error = Option.none ∧
    (checkConcertPrice c3concertFail c3envFail).priceFound = false :=
  ⟨rfl, by decide, by decide, by decide, by rfl, by rfl⟩

/-- C3 (amended): an API failure is caught per-event and does not abort the
cycle — every event still produces a result, in order — but the cycle
error count is never incremented (the event counts as price-not-found),
and when scraping is disabled or yields nothing, no history is written and
no alert is attempted or sent for that event. -/
theorem c3_apiFailureHandling (items : List (Concert × CheckEnv)) (i : Nat)
    (c : Concert) (env : CheckEnv)
    (hi : items.get? i = some (c, env))
    (hapi : env.apiResult = ApiResult.failure)
    (hscrape : env.enableScraping = false ∨ env.scrapeResult = []) :
    (checkAllPrices items).errors = 0 ∧
    (checkAllPrices items).results.length = items.length ∧
    (checkAllPrices items).results.get? i =
      some { emptyCheckResult with usedScraper := env.enableScraping } ∧
    (checkConcertPrice c env).storedRecords = [] ∧
    (checkConcertPrice c env).alertAttempted = false ∧
    (checkConcertPrice c env).alertSent = false ∧
    (checkConcertPrice c env).priceFound = false ∧
    (checkConcertPrice c env).error = Option.none := by
  have hone := apiFailure_noData c env hapi hscrape
  refine ⟨checkAll_errors items, ?_, ?_, ?_, ?_, ?_, ?_, ?_⟩
  · rw [checkAll_results, List.length_map]
  · rw [checkAll_results, List.get?_map, hi]
    simp [hone]
  · rw [hone]; rfl
  · rw [hone]; rfl
  · rw [hone]; rfl
  · rw [hone]; rfl
  · rw [hone]; rfl

/-- Witness for the amended C3 at the concrete one-event cycle. -/
theorem c3_apiFailureHandling_witness :
    (checkAllPrices [(c3concertFail, c3envFail)]).errors = 0 ∧
    (checkAllPrices [(c3concertFail, c3envFail)]).results.length =
      [(c3concertFail, c3envFail)].length ∧
    (checkAllPrices [(c3concertFail, c3envFail)]).results.get? 0 =
      some { emptyCheckResult with usedScraper := c3envFail.enableScraping } ∧
    (checkConcertPrice c3concertFail c3envFail).storedRecords = [] ∧
    (checkConcertPrice c3concertFail c3envFail).alertAttempted = false ∧
    (checkConcertPrice c3concertFail c3envFail).alertSent = false ∧
    (checkConcertPrice c3concertFail c3envFail).priceFound = false ∧
    (checkConcertPrice c3concertFail c3envFail).error = Option.none :=
  c3_apiFailureHandling [(c3concertFail, c3envFail)] 0 c3concertFail c3envFail
    rfl rfl (Or.inl rfl)

/-- Spec-side trigger predicate of C4: a section triggers when its current
price is at most its effective threshold (section override, else event
default) or its percentage delta is at most minus the configured minimum
drop percent. -/
def triggersAlert (c : Concert) (env : CheckEnv) (sc : String × SectionChange) : Prop :=
  sc.2.current ≤ getSectionThreshold env.sectionThresholds c.eventId sc.1 c.thresholdPrice ∨
  ∃ pct, sc.2.changePercent = some pct ∧ pct ≤ -env.minPriceDropPercent

theorem qmin_le_left (a b : ℚ) : qmin a b ≤ a := by
  unfold qmin
  by_cases h : b < a
  · rw [if_pos h]; exact le_of_lt h
  · rw [if_neg h]

theorem qmin_le_right (a b : ℚ) : qmin a b ≤ b := by
  unfold qmin
  by_cases h : b < a
  · rw [if_pos h]
  · rw [if_neg h]; exact le_of_not_lt h

theorem listMinQ_cons (a b : ℚ) (bs : List ℚ) :
    listMinQ a (b :: bs) = listMinQ (qmin a b) bs := rfl

theorem listMinQ_le_seed (rest : List ℚ) : ∀ a : ℚ, listMinQ a rest ≤ a := by
  induction rest with
  | nil => intro a; exact le_refl a
  | cons b bs ih =>
    intro a
    rw [listMinQ_cons]
    exact le_trans (ih (qmin a b)) (qmin_le_left a b)

theorem listMinQ_mem (a : ℚ) (rest : List ℚ) : listMinQ a rest ∈ a :: rest := by
  induction rest generalizing a with
  | nil => simp [listMinQ]
  | cons b bs ih =>
    rw [listMinQ_cons]
    have h := ih (qmin a b)
    rcases List.mem_cons.mp h with h1 | h1
    · rw [h1]
      unfold qmin
      by_cases hb : b < a
      · rw [if_pos hb]; exact List.mem_cons_of_mem _ (List.mem_cons_self _ _)
      · rw [if_neg hb]; exact List.mem_cons_self _ _
    · exact List.mem_cons_of_mem _ (List.mem_cons_of_mem _ h1)

theorem listMinQ_le (a : ℚ) (rest : List ℚ) : ∀ x ∈ a :: rest, listMinQ a rest ≤ x := by
  induction rest generalizing a with
  | nil =>
    intro x hx
    simp only [List.mem_cons, List.not_mem_nil, or_false] at hx
    rw [hx]
    exact le_refl a
  | cons b bs ih =>
    intro x hx
    rw [listMinQ_cons]
    rcases List.mem_cons.mp hx with h1 | h1
    · rw [h1]
      exact le_trans (listMinQ_le_seed bs (qmin a b)) (qmin_le_left a b)
    · rcases List.mem_cons.mp h1 with h2 | h2
      · rw [h2]
        exact le_trans (listMinQ_le_seed bs (qmin a b)) (qmin_le_right a b)
      · exact ih (qmin a b) x (List.mem_cons_of_mem _ h2)

theorem mem_belowOf_intro (c : Concert) (env : CheckEnv)
    (changes : List (String × SectionChange)) (sc : String × SectionChange)
    (hm : sc ∈ changes)
    (hle : sc.2.current ≤
      getSectionThreshold env.sectionThresholds c.eventId sc.1 c.thresholdPrice) :
    sc.2.current ∈ (belowOf c env changes).map fun b => b.current := by
  unfold belowOf
  refine List.mem_map.mpr
    ⟨{ sectionName := sc.1, current := sc.2.current,
       threshold := getSectionThreshold env.sectionThresholds c.eventId sc.1 c.thresholdPrice },
     ?_, rfl⟩
  exact List.mem_filterMap.mpr ⟨sc, hm, by simp [hle]⟩

theorem mem_belowOf_elim (c : Concert) (env : CheckEnv)
    (changes : List (String × SectionChange)) (b : BelowEntry)
    (hb : b ∈ belowOf c env changes) :
    ∃ sc ∈ changes, sc.2.current = b.current ∧
      sc.2.current ≤
        getSectionThreshold env.sectionThresholds c.eventId sc.1 c.thresholdPrice := by
  unfold belowOf at hb
  obtain ⟨sc, hm, hf⟩ := List.mem_filterMap.mp hb
  by_cases hle : sc.2.current ≤
      getSectionThreshold env.sectionThresholds c.eventId sc.1 c.thresholdPrice
  · refine ⟨sc, hm, ?_, hle⟩
    simp only [if_pos hle] at hf
    rw [← Option.some.inj hf]
  · simp only [if_neg hle] at hf
    exact absurd hf (by simp)

theorem mem_dropsOf_intro (c : Concert) (env : CheckEnv)
    (changes : List (String × SectionChange)) (sc : String × SectionChange) (pct : ℚ)
    (hm : sc ∈ changes) (hpct : sc.2.changePercent = some pct)
    (hple : pct ≤ -env.minPriceDropPercent) :
    sc.2.current ∈ (dropsOf c env changes).map fun d => d.current := by
  unfold dropsOf
  refine List.mem_map.mpr
    ⟨{ sectionName := sc.1, previous := sc.2.previous, current := sc.2.current,
       dropPercent := qabs pct,
       threshold := getSectionThreshold env.sectionThresholds c.eventId sc.1 c.thresholdPrice },
     ?_, rfl⟩
  exact List.mem_filterMap.mpr ⟨sc, hm, by simp [hpct, hple]⟩

theorem mem_dropsOf_elim (c : Concert) (env : CheckEnv)
    (changes : List (String × SectionChange)) (d : DropEntry)
    (hd : d ∈ dropsOf c env changes) :
    ∃ sc ∈ changes, sc.2.current = d.current ∧
      ∃ pct, sc.2.changePercent = some pct ∧ pct ≤ -env.minPriceDropPercent := by
  unfold dropsOf at hd
  obtain ⟨sc, hm, hf⟩ := List.mem_filterMap.mp hd
  cases hpc : sc.2.changePercent with
  | none =>
    simp only [hpc] at hf
    exact absurd hf (by simp)
  | some pct =>
    by_cases hple : pct ≤ -env.minPriceDropPercent
    · refine ⟨sc, hm, ?_, pct, hpc, hple⟩
      simp only [hpc, if_pos hple] at hf
      rw [← Option.some.inj hf]
    · simp only [hpc, if_neg hple] at hf
      exact absurd hf (by simp)

theorem processSections_alertFields (c : Concert) (env : CheckEnv) (us : Bool) (ds : String)
    (sp : List (String × ℚ)) (hsp : sp.isEmpty = false) (a : ℚ) (rest : List ℚ)
    (hap : (belowOf c env (buildChanges env sp)).map (fun b => b.current) ++
           (dropsOf c env (buildChanges env sp)).map (fun d => d.current) = a :: rest) :
    (processSections c env us ds sp).alertAttempted = true ∧
    (processSections c env us ds sp).alertCurrent = some (listMinQ a rest) ∧
    (processSections c env us ds sp).alertPrevious =
      some (alertPrevChoice (buildChanges env sp) (listMinQ a rest)) := by
  have hne : (!(dropsOf c env (buildChanges env sp)).isEmpty ||
              !(belowOf c env (buildChanges env sp)).isEmpty) = true := by
    rcases hb : belowOf c env (buildChanges env sp) with _ | ⟨b0, bs⟩
    · rcases hdp : dropsOf c env (buildChanges env sp) with _ | ⟨d0, dsp⟩
      · rw [hb, hdp] at hap; simp at hap
      · simp [hdp]
    · simp [hb]
  unfold processSections
  rw [if_neg (by simp [hsp]), if_pos hne, hap]
  exact ⟨rfl, rfl, rfl⟩

/-- Environment of the C4 counterexample: two sections A and B scrape at
the same price 100; A's previous price is 101 (no trigger: its threshold
is the default 50 and its drop is under 1%), B's previous is 150 and its
override threshold is 100, so only B triggers (below threshold and a
33.3% drop). -/
def c4envTwo : CheckEnv :=
  { apiResult := .failure, enableScraping := true,
    scrapeResult := [("A", 100), ("B", 100)],
    prevPrice := fun s =>
      if s = "A" then some 101 else if s = "B" then some 150 else Option.none,
    sectionThresholds := [("E1", [("B", 100)])],
    minPriceDropPercent := 10, emailSendOk := true }

/-- The tracked concert of the C4 counterexample. -/
def c4concertTwo : Concert :=
  { eventId := "E1", name := "Event One", thresholdPrice := 50 }

/-- C4 (counterexample): the only triggering section is B (both lists carry
only B), and B's previous recorded price is 150, yet the alert is sent with
previous-price 101 — the previous price of the non-triggering section A,
the first section in iteration order whose current price equals the
minimum alert price and whose previous price is truthy.  The claim
requires the previous price of the triggering section itself. -/
theorem c4_prevPriceCounterexample :
    (checkConcertPrice c4concertTwo c4envTwo).alertAttempted = true ∧
    (checkConcertPrice c4concertTwo c4envTwo).alertCurrent = some 100 ∧
    (checkConcertPrice c4concertTwo c4envTwo).alertPrevious = some 101 ∧
    (checkConcertPrice c4concertTwo c4envTwo).sectionsBelowThreshold =
      [{ sectionName := "B", current := 100, threshold := 100 }] ∧
    (checkConcertPrice c4concertTwo c4envTwo).significantDrops =
      [{ sectionName := "B", previous := some 150, current := 100,
         dropPercent := mkRat 100 3, threshold := 100 }] ∧
    c4envTwo.prevPrice "B" = some 150 ∧
    (101 : ℚ) ≠ 150 :=
  ⟨by with_unfolding_all decide, by with_unfolding_all decide,
   by with_unfolding_all decide, by with_unfolding_all decide,
   by with_unfolding_all decide, by with_unfolding_all decide,
   by with_unfolding_all decide⟩

/-- C4 (amended): whenever some section triggers either condition, exactly
one alert notification is attempted; its current-price argument is the
minimum current price among triggering sections, and its previous-price
argument is chosen by `alertPrevChoice`: the previous price of the first
section in iteration order whose current price equals that minimum and
whose previous price is non-null and non-zero, defaulting to the minimum
itself. -/
theorem c4_alertUsesFirstMatchingPrev (c : Concert) (env : CheckEnv) (us : Bool)
    (ds : String) (sp : List (String × ℚ))
    (htrig : ∃ sc ∈ buildChanges env sp, triggersAlert c env sc) :
    (processSections c env us ds sp).alertAttempted = true ∧
    ∃ m, (processSections c env us ds sp).alertCurrent = some m ∧
      (∃ sc ∈ buildChanges env sp, triggersAlert c env sc ∧ sc.2.current = m) ∧
      (∀ sc ∈ buildChanges env sp, triggersAlert c env sc → m ≤ sc.2.current) ∧
      (processSections c env us ds sp).alertPrevious =
        some (alertPrevChoice (buildChanges env sp) m) := by
  obtain ⟨sc0, hm0, ht0⟩ := htrig
  have hsp : sp.isEmpty = false := by
    cases sp with
    | nil => simp [buildChanges] at hm0
    | cons _ _ => rfl
  have hfwd : ∀ sc ∈ buildChanges env sp, triggersAlert c env sc →
      sc.2.current ∈
        (belowOf c env (buildChanges env sp)).map (fun b => b.current) ++
        (dropsOf c env (buildChanges env sp)).map (fun d => d.current) := by
    intro sc hm ht
    rcases ht with hle | ⟨pct, hpct, hple⟩
    · exact List.mem_append_left _ (mem_belowOf_intro c env _ sc hm hle)
    · exact List.mem_append_right _ (mem_dropsOf_intro c env _ sc pct hm hpct hple)
  have hbwd : ∀ x, x ∈
        (belowOf c env (buildChanges env sp)).map (fun b => b.current) ++
        (dropsOf c env (buildChanges env sp)).map (fun d => d.current) →
      ∃ sc ∈ buildChanges env sp, triggersAlert c env sc ∧ sc.2.current = x := by
    intro x hx
    rcases List.mem_append.mp hx with hx | hx
    · obtain ⟨b, hb, hbx⟩ := List.mem_map.mp hx
      obtain ⟨sc, hm, hcur, hle⟩ := mem_belowOf_elim c env _ b hb
      exact ⟨sc, hm, Or.inl hle, by rw [hcur, hbx]⟩
    · obtain ⟨d, hd2, hdx⟩ := List.mem_map.mp hx
      obtain ⟨sc, hm, hcur, pct, hpct, hple⟩ := mem_dropsOf_elim c env _ d hd2
      exact ⟨sc, hm, Or.inr ⟨pct, hpct, hple⟩, by rw [hcur, hdx]⟩
  have hx0 := hfwd sc0 hm0 ht0
  cases hap : (belowOf c env (buildChanges env sp)).map (fun b => b.current) ++
      (dropsOf c env (buildChanges env sp)).map (fun d => d.current) with
  | nil => rw [hap] at hx0; exact absurd hx0 (by simp)
  | cons a rest =>
    have hfields := processSections_alertFields c env us ds sp hsp a rest hap
    refine ⟨hfields.1, listMinQ a rest, hfields.2.1, ?_, ?_, hfields.2.2⟩
    · have hmem : listMinQ a rest ∈ a :: rest := listMinQ_mem a rest
      rw [← hap] at hmem
      exact hbwd _ hmem
    · intro sc hm ht
      have hx := hfwd sc hm ht
      rw [hap] at hx
      exact listMinQ_le a rest _ hx

/-- Witness environment for the amended C4: a single scraped section
`General` at 80 with default threshold 100 triggers a below-threshold
alert. -/
def c4envOne : CheckEnv :=
  { apiResult := .failure, enableScraping := true, scrapeResult := [("General", 80)],
    prevPrice := fun _ => Option.none, sectionThresholds := [],
    minPriceDropPercent := 10, emailSendOk := true }

/-- Concert for the amended C4 witness. -/
def c4concertOne : Concert :=
  { eventId := "E4", name := "Witness Event", thresholdPrice := 100 }

/-- Witness for the amended C4 at a concrete triggering input. -/
theorem c4_alertUsesFirstMatchingPrev_witness :
    (processSections c4concertOne c4envOne true "scraping" [("General", 80)]).alertAttempted
        = true ∧
    ∃ m, (processSections c4concertOne c4envOne true "scraping"
            [("General", 80)]).alertCurrent = some m ∧
      (∃ sc ∈ buildChanges c4envOne [("General", 80)],
          triggersAlert c4concertOne c4envOne sc ∧ sc.2.current = m) ∧
      (∀ sc ∈ buildChanges c4envOne [("General", 80)],
          triggersAlert c4concertOne c4envOne sc → m ≤ sc.2.current) ∧
      (processSections c4concertOne c4envOne true "scraping"
          [("General", 80)]).alertPrevious =
        some (alertPrevChoice (buildChanges c4envOne [("General", 80)]) m) :=
  c4_alertUsesFirstMatchingPrev c4concertOne c4envOne true "scraping" [("General", 80)]
    ⟨("General", mkSectionChange 80 Option.none), by with_unfolding_all decide,
     Or.inl (by with_unfolding_all decide)⟩

end TixScanner
